import Mathlib

/-!
Shallow embedding of `protonats/error.go` (package `protonats`).

The Go file defines two error value types, `ServiceError` and `ServerError`,
discrimination helpers built on `errors.As`, and header-attachment methods on
`ServerError` whose header field is a Go map, i.e. a *reference* into a heap
of maps.  To reason about aliasing of header maps (struct copies of a
`ServerError` share the same underlying map) the embedding threads an explicit
store of header maps: a header field is `Option Nat`, `none` standing for a
Go `nil` map and `some r` for a reference to slot `r` of the store.

Go's runtime panic on assignment into a `nil` map is modelled by returning
`none` from the operations that would perform such an assignment.
-/

namespace ProtoNats

/-- `ServiceError` from the source: `Code, Description, Details string`. -/
structure ServiceError where
  Code : String
  Description : String
  Details : String
deriving DecidableEq, Repr

/-- The universe of Go `error` values relevant to this package:
`ServiceError` values, `ServerError` values (split into the no-cause and
with-cause constructors so the type is a plain inductive), plain errors such
as those from `errors.New` (no `Unwrap` method), and a generic wrapping error
in the style of `fmt.Errorf("...: %w", inner)` (carries its full message text
and exposes the inner error via `Unwrap`).  Note that the source's
`ServerError` implements `Cause() error` but *not* `Unwrap() error`, so the
standard-library unwrap chain does not continue into its wrapped error. -/
inductive GoError where
  | svcErr (se : ServiceError)
  | srvErrNil (code description : String) (headers : Option Nat)
  | srvErrWrap (code description : String) (inner : GoError) (headers : Option Nat)
  | basic (msg : String)
  | wrapf (text : String) (inner : GoError)
deriving DecidableEq, Repr

/-- `ServiceError.Error`: `"%s: %s"` of code and description, with
`" (%s)"` of details appended when details is non-empty. -/
def ServiceError.Error (e : ServiceError) : String :=
  if e.Details = "" then e.Code ++ ": " ++ e.Description
  else e.Code ++ ": " ++ e.Description ++ " (" ++ e.Details ++ ")"

/-- `Error()` of each Go error value in the universe.  For `ServerError` the
source returns `Description + ": " + Wrapped.Error()` when a cause is
present, else the description alone. -/
def GoError.Error : GoError → String
  | .svcErr se => se.Error
  | .srvErrNil _ d _ => d
  | .srvErrWrap _ d inner _ => d ++ ": " ++ inner.Error
  | .basic m => m
  | .wrapf t _ => t

/-- The two package-level sentinel errors, built with `errors.New`. -/
def ErrMarshallingFailed : GoError := .basic "Failed to marshal proto message"

/-- The second sentinel, `errors.New("Failed to unmarshal proto message")`. -/
def ErrUnmarshallingFailed : GoError := .basic "Failed to unmarshal proto message"

/-- Model of `errors.As(err, &se)` for target type `ServiceError`
(`github.com/pkg/errors.As` delegates to the standard library's
`errors.As`): walk the unwrap chain; a `ServiceError` in the chain is
assigned to the target and the walk succeeds.  Only `wrapf`-style errors
expose `Unwrap`; `ServerError` (which has only `Cause`), `basic` errors and
`ServiceError` itself end the chain. -/
def errorsAsServiceError : GoError → Option ServiceError
  | .svcErr se => some se
  | .wrapf _ inner => errorsAsServiceError inner
  | .srvErrNil _ _ _ => none
  | .srvErrWrap _ _ _ _ => none
  | .basic _ => none

/-- `IsServiceError` from the source; a Go `error` argument may be `nil`,
hence the `Option`.  `errors.As` returns `false` on a `nil` error. -/
def IsServiceError : Option GoError → Bool
  | none => false
  | some e => (errorsAsServiceError e).isSome

/-- `AsServiceError` from the source: returns the zero-valued
`ServiceError` together with `false` when `errors.As` fails. -/
def AsServiceError : Option GoError → ServiceError × Bool
  | none => (⟨"", "", ""⟩, false)
  | some e =>
    match errorsAsServiceError e with
    | some se => (se, true)
    | none => (⟨"", "", ""⟩, false)

/-- `ServiceError.Is`: the source ignores the receiver and runs
`errors.As(target, &se)` on the target. -/
def ServiceError.Is (_ : ServiceError) (target : Option GoError) : Bool :=
  IsServiceError target

/-- A Go header map `map[string][]string`: an association list with unique
keys (Go maps cannot hold a key twice). -/
abbrev HeaderMap := List (String × List String)

/-- The heap of allocated header maps; a `ServerError.Headers` field of
`some r` references slot `r`. -/
abbrev Store := List HeaderMap

/-- Allocate a fresh map on the heap, returning the new store and the
reference to the new slot. -/
def Store.alloc (s : Store) (m : HeaderMap) : Store × Nat :=
  (s ++ [m], s.length)

/-- Dereference a map slot (out-of-range reads as the empty map; the
operations below only ever read slots they were handed). -/
def Store.read (s : Store) (r : Nat) : HeaderMap :=
  (s.get? r).getD []

/-- Overwrite a map slot in place — this is what a Go map mutation does to
the shared underlying map. -/
def Store.write (s : Store) (r : Nat) (m : HeaderMap) : Store :=
  s.set r m

/-- Go map lookup `m[k]` (a missing key reads as the `nil` slice `[]`). -/
def HeaderMap.getV : HeaderMap → String → List String
  | [], _ => []
  | (k', v') :: rest, k => if k' = k then v' else HeaderMap.getV rest k

/-- Go map assignment `m[k] = v`: replace the value when the key is present,
insert the pair otherwise. -/
def HeaderMap.setV : HeaderMap → String → List String → HeaderMap
  | [], k, v => [(k, v)]
  | (k', v') :: rest, k, v =>
    if k' = k then (k, v) :: rest else (k', v') :: HeaderMap.setV rest k v

/-- Whether the map holds the key. -/
def HeaderMap.hasKey : HeaderMap → String → Bool
  | [], _ => false
  | (k', _) :: rest, k => k' = k || HeaderMap.hasKey rest k

/-- `ServerError` from the source.  `Wrapped` is the optional cause;
`Headers` is the map reference (`none` = Go `nil` map). -/
structure ServerError where
  Code : String
  Description : String
  Wrapped : Option GoError
  Headers : Option Nat
deriving DecidableEq, Repr

/-- A `ServerError` used as a Go `error` value. -/
def ServerError.toErr (n : ServerError) : GoError :=
  match n.Wrapped with
  | none => .srvErrNil n.Code n.Description n.Headers
  | some w => .srvErrWrap n.Code n.Description w n.Headers

/-- `ServerError.Error` from the source. -/
def ServerError.Error (n : ServerError) : String :=
  match n.Wrapped with
  | some w => n.Description ++ ": " ++ w.Error
  | none => n.Description

/-- `ServerError.Cause` from the source. -/
def ServerError.Cause (n : ServerError) : Option GoError :=
  n.Wrapped

/-- The byte sequence `[]byte(t)` of a Go string conversion: the UTF-8
encoding of the text (the same byte list `String.toUTF8` carries). -/
def goBytes (t : String) : List UInt8 :=
  t.data.flatMap String.utf8EncodeChar

/-- `ServerError.GetWrapped` from the source: `[]byte(Wrapped.Error())`
when a cause is present, Go `nil` (modelled `none`) otherwise. -/
def ServerError.GetWrapped (n : ServerError) : Option (List UInt8) :=
  match n.Wrapped with
  | some w => some (goBytes w.Error)
  | none => none

/-- `ensureHeader` from the source.  It has a *value* receiver, so the
allocation it makes when `Headers` is `nil` lands in the method's local copy
of the receiver; the embedding returns that updated copy together with the
grown store, and — exactly as in Go — every caller in the source discards
both. -/
def ServerError.ensureHeader (s : Store) (n : ServerError) : Store × ServerError :=
  match n.Headers with
  | none =>
    let a := Store.alloc s []
    (a.1, { n with Headers := some a.2 })
  | some _ => (s, n)

/-- `AddHeader` from the source.  The `n.ensureHeader()` call updates a
discarded copy of the receiver, so when the caller's `Headers` is still
`nil` the following `n.Headers[header] = append(n.Headers[header], value)`
assigns into a `nil` map — a Go runtime panic, modelled as `none`.  With a
live map reference it appends to the slot's value slice in place and
returns the receiver (same reference). -/
def ServerError.AddHeader (s : Store) (n : ServerError) (header value : String) :
    Option (Store × ServerError) :=
  let e := ServerError.ensureHeader s n
  match n.Headers with
  | none => none
  | some r =>
    let m := Store.read e.1 r
    some (Store.write e.1 r (HeaderMap.setV m header (HeaderMap.getV m header ++ [value])), n)

/-- `SetHeader` from the source; like `AddHeader` but the slot's value for
the key becomes the one-element slice `[value]`.  Panics (`none`) on a
`nil` map for the same reason. -/
def ServerError.SetHeader (s : Store) (n : ServerError) (header value : String) :
    Option (Store × ServerError) :=
  let e := ServerError.ensureHeader s n
  match n.Headers with
  | none => none
  | some r =>
    some (Store.write e.1 r (HeaderMap.setV (Store.read e.1 r) header [value]), n)

/-- `GetHeaders` from the source returns `n.Headers` itself (the
`ensureHeader` call changes only a copy, so a `nil` map stays `nil`): this
is the reference handed to the caller. -/
def ServerError.GetHeadersRef (n : ServerError) : Option Nat :=
  n.Headers

/-- The header contents observable through `GetHeaders` in a given store: a
`nil` map reads as empty, a live reference reads its slot. -/
def ServerError.GetHeaders (s : Store) (n : ServerError) : HeaderMap :=
  match n.Headers with
  | none => []
  | some r => Store.read s r

/-- `WithHeaders` from the source: value receiver, so it returns a copy of
the receiver whose `Headers` field is the given map reference (the source
returns it typed as `error`). -/
def ServerError.WithHeaders (n : ServerError) (headers : Option Nat) : ServerError :=
  { n with Headers := headers }

/-- An outgoing NATS message, reduced to the one field `GetOptHeaders`
touches: its header container, again a possibly-`nil` map reference. -/
structure Msg where
  Header : Option Nat
deriving DecidableEq, Repr

/-- The body of `for k, v := range src { dst[k] = v }`: fold the source
map's entries into the destination map. -/
def HeaderMap.mergeInto (dst src : HeaderMap) : HeaderMap :=
  src.foldl (fun acc p => HeaderMap.setV acc p.1 p.2) dst

/-- `GetOptHeaders` from the source.  When `n.Headers` is `nil` or empty it
returns a no-op decorator.  Otherwise the decorator, applied to a message in
a store: if the message's header container is `nil`, the ServerError's map
reference itself is assigned to the message; otherwise each of the
ServerError's entries is written into the message's map slot. -/
def ServerError.GetOptHeaders (s : Store) (n : ServerError) :
    Store → Msg → Store × Msg :=
  match n.Headers with
  | none => fun s2 m => (s2, m)
  | some r =>
    if (Store.read s r).isEmpty then fun s2 m => (s2, m)
    else fun s2 m =>
      match m.Header with
      | none => (s2, { m with Header := some r })
      | some mr =>
        (Store.write s2 mr (HeaderMap.mergeInto (Store.read s2 mr) (Store.read s2 r)), m)

/-- `WrapServerErr` from the source: code, description, the given cause (a
Go `error`, possibly `nil`), and a `nil` header map. -/
def WrapServerErr (err : Option GoError) (code description : String) : ServerError :=
  { Code := code, Description := description, Wrapped := err, Headers := none }

/-- `NewServerErr` from the source: `WrapServerErr(nil, code, description)`. -/
def NewServerErr (code description : String) : ServerError :=
  WrapServerErr none code description

/-- The unwrap chain of a Go error value, as walked by the standard
library's `errors.As`: only `wrapf`-style errors expose `Unwrap`. -/
def GoError.unwrapChain : GoError → List GoError
  | .wrapf t inner => .wrapf t inner :: inner.unwrapChain
  | e => [e]

/-- UTF-8 encodes every character into at least one byte. -/
theorem utf8EncodeChar_ne_nil (c : Char) : String.utf8EncodeChar c ≠ [] := by
  simp only [String.utf8EncodeChar]
  split
  · simp
  · split
    · simp
    · split <;> simp

/-- The Go byte conversion of a string is empty exactly when the string is. -/
theorem goBytes_eq_nil_iff (t : String) : goBytes t = [] ↔ t = "" := by
  constructor
  · intro h
    rw [goBytes, List.flatMap_eq_nil_iff] at h
    apply String.ext
    cases ht : t.data with
    | nil => rfl
    | cons c cs => exact absurd (h c (by rw [ht]; exact List.mem_cons_self c cs)) (utf8EncodeChar_ne_nil c)
  · intro h
    subst h
    rfl

end ProtoNats

namespace ProtoNats

/-- C6: the error text of a fresh ServerError is its description alone; with
a cause it is the description, a separating colon-space, and the cause's own
error text, composing recursively when the cause is itself a ServerError. -/
theorem C6_error_text (code description : String) :
    (NewServerErr code description).Error = description
    ∧ (∀ cause : GoError,
        (WrapServerErr (some cause) code description).Error
          = description ++ ": " ++ cause.Error)
    ∧ (∀ code2 desc2 inner hdrs,
        (WrapServerErr (some (GoError.srvErrWrap code2 desc2 inner hdrs)) code description).Error
          = description ++ ": " ++ (desc2 ++ ": " ++ inner.Error)) :=
  ⟨rfl, fun _ => rfl, fun _ _ _ _ => rfl⟩

/-- C7: GetWrapped is absent exactly when there is no cause; with a cause it
is the present byte encoding of the cause's error text, empty only when that
text is empty. -/
theorem C7_wrapped_bytes (n : ServerError) :
    (n.Wrapped = none → n.GetWrapped = none)
    ∧ (∀ w, n.Wrapped = some w →
        n.GetWrapped = some (goBytes w.Error)
        ∧ n.GetWrapped ≠ none
        ∧ (goBytes w.Error = [] ↔ w.Error = "")) := by
  constructor
  · intro h
    simp [ServerError.GetWrapped, h]
  · intro w h
    refine ⟨by simp [ServerError.GetWrapped, h], by simp [ServerError.GetWrapped, h], ?_⟩
    exact goBytes_eq_nil_iff w.Error

/-- Closed instance of C7 at a fresh ServerError and at one wrapping a plain
cause with non-empty text. -/
theorem C7_wrapped_bytes_witness :
    (NewServerErr "c" "d").GetWrapped = none
    ∧ (WrapServerErr (some (GoError.basic "disk full")) "STORAGE_FULL" "cannot persist record").GetWrapped
        = some (goBytes "disk full")
    ∧ goBytes "disk full" ≠ [] := by
  have h1 := (C7_wrapped_bytes (NewServerErr "c" "d")).1 rfl
  have h2 := (C7_wrapped_bytes
    (WrapServerErr (some (GoError.basic "disk full")) "STORAGE_FULL" "cannot persist record")).2
    (GoError.basic "disk full") rfl
  refine ⟨h1, h2.1, fun hnil => ?_⟩
  have : GoError.Error (GoError.basic "disk full") = "" := h2.2.2.mp hnil
  simp [GoError.Error] at this

/-- C8: the text of a ServiceError is code, colon-space, description, with
the parenthesised details appended exactly when details is non-empty; the
text always contains both the code and the description. -/
theorem C8_service_error_text (e : ServiceError) :
    (e.Details = "" → e.Error = e.Code ++ ": " ++ e.Description)
    ∧ (e.Details ≠ "" → e.Error = e.Code ++ ": " ++ e.Description ++ " (" ++ e.Details ++ ")")
    ∧ (∃ u v, e.Error = u ++ e.Code ++ v)
    ∧ (∃ u v, e.Error = u ++ e.Description ++ v) := by
  by_cases h : e.Details = ""
  · refine ⟨fun _ => by simp [ServiceError.Error, h], fun h2 => absurd h h2, ?_, ?_⟩
    · exact ⟨"", ": " ++ e.Description, by simp [ServiceError.Error, h, String.append_assoc]⟩
    · exact ⟨e.Code ++ ": ", "", by simp [ServiceError.Error, h, String.append_assoc]⟩
  · refine ⟨fun h2 => absurd h2 h, fun _ => by simp [ServiceError.Error, h], ?_, ?_⟩
    · exact ⟨"", ": " ++ e.Description ++ " (" ++ e.Details ++ ")",
        by simp [ServiceError.Error, h, String.append_assoc]⟩
    · exact ⟨e.Code ++ ": ", " (" ++ e.Details ++ ")",
        by simp [ServiceError.Error, h, String.append_assoc]⟩

/-- Closed instance of C8 with empty and with non-empty details. -/
theorem C8_service_error_text_witness :
    ServiceError.Error ⟨"C", "D", ""⟩ = "C: D"
    ∧ ServiceError.Error ⟨"C", "D", "extra"⟩ = "C: D (extra)" := by
  have h1 := (C8_service_error_text ⟨"C", "D", ""⟩).1 rfl
  have h2 := (C8_service_error_text ⟨"C", "D", "extra"⟩).2.1 (by decide)
  exact ⟨h1, h2⟩

/-- C9: IsServiceError is false on plain errors, on both marshalling
sentinels, and on every ServerError value, whatever it wraps. -/
theorem C9_no_confusion :
    (∀ msg, IsServiceError (some (GoError.basic msg)) = false)
    ∧ IsServiceError (some ErrMarshallingFailed) = false
    ∧ IsServiceError (some ErrUnmarshallingFailed) = false
    ∧ (∀ n : ServerError, IsServiceError (some n.toErr) = false) := by
  refine ⟨fun _ => rfl, rfl, rfl, fun n => ?_⟩
  cases hw : n.Wrapped <;>
    simp [ServerError.toErr, hw, IsServiceError, errorsAsServiceError]

/-- A ServiceError sits in an error's unwrap chain exactly when the
`errors.As` walk succeeds. -/
theorem errorsAs_isSome_iff_chain (e : GoError) :
    (errorsAsServiceError e).isSome = true ↔ ∃ se, GoError.svcErr se ∈ e.unwrapChain := by
  induction e with
  | svcErr se =>
    simp [errorsAsServiceError, GoError.unwrapChain]
  | srvErrNil c d h =>
    simp [errorsAsServiceError, GoError.unwrapChain]
  | srvErrWrap c d inner h ih =>
    simp [errorsAsServiceError, GoError.unwrapChain]
  | basic m =>
    simp [errorsAsServiceError, GoError.unwrapChain]
  | wrapf t inner ih =>
    simp only [errorsAsServiceError, GoError.unwrapChain, List.mem_cons]
    rw [ih]
    constructor
    · rintro ⟨se, hse⟩
      exact ⟨se, Or.inr hse⟩
    · rintro ⟨se, hse | hse⟩
      · cases hse
      · exact ⟨se, hse⟩

/-- When a ServiceError sits in the unwrap chain, the `errors.As` walk
returns exactly that ServiceError (the chain can hold at most one: only its
last element can be a ServiceError). -/
theorem errorsAs_eq_of_mem_chain (e : GoError) (se : ServiceError)
    (h : GoError.svcErr se ∈ e.unwrapChain) : errorsAsServiceError e = some se := by
  induction e with
  | svcErr se2 =>
    simp [GoError.unwrapChain] at h
    rw [errorsAsServiceError, ← h]
  | srvErrNil c d hd =>
    simp [GoError.unwrapChain] at h
  | srvErrWrap c d inner hd ih =>
    simp [GoError.unwrapChain] at h
  | basic m =>
    simp [GoError.unwrapChain] at h
  | wrapf t inner ih =>
    simp only [GoError.unwrapChain, List.mem_cons] at h
    rcases h with h | h
    · cases h
    · rw [errorsAsServiceError]
      exact ih h

/-- C4: IsServiceError holds exactly on errors whose unwrap chain contains
a ServiceError; AsServiceError succeeds on exactly the same errors and then
returns the very ServiceError found in the chain (so its Code, Description
and Details coincide with the original's); the method Is agrees with
IsServiceError on every target, whatever its receiver. -/
theorem C4_discrimination (err : Option GoError) :
    (IsServiceError err = true ↔ ∃ e se, err = some e ∧ GoError.svcErr se ∈ e.unwrapChain)
    ∧ (AsServiceError err).2 = IsServiceError err
    ∧ (∀ e se, err = some e → GoError.svcErr se ∈ e.unwrapChain →
        (AsServiceError err).1 = se)
    ∧ (∀ recv : ServiceError, recv.Is err = IsServiceError err) := by
  refine ⟨?_, ?_, ?_, fun recv => rfl⟩
  · cases err with
    | none =>
      simp [IsServiceError]
    | some e =>
      rw [IsServiceError]
      rw [errorsAs_isSome_iff_chain]
      constructor
      · rintro ⟨se, hse⟩
        exact ⟨e, se, rfl, hse⟩
      · rintro ⟨e2, se, he, hse⟩
        cases he
        exact ⟨se, hse⟩
  · cases err with
    | none => rfl
    | some e =>
      rw [IsServiceError, AsServiceError]
      cases h : errorsAsServiceError e <;> simp [h]
  · rintro e se rfl hse
    rw [AsServiceError, errorsAs_eq_of_mem_chain e se hse]

/-- Closed instance of C4: a ServiceError two wrapping layers deep is
found, with its fields intact. -/
theorem C4_discrimination_witness :
    (AsServiceError (some (GoError.wrapf "ctx: boom"
        (GoError.wrapf "boom" (GoError.svcErr ⟨"C", "D", "E"⟩))))).1 = ⟨"C", "D", "E"⟩
    ∧ IsServiceError (some (GoError.wrapf "ctx: boom"
        (GoError.wrapf "boom" (GoError.svcErr ⟨"C", "D", "E"⟩)))) = true := by
  have h := C4_discrimination (some (GoError.wrapf "ctx: boom"
    (GoError.wrapf "boom" (GoError.svcErr ⟨"C", "D", "E"⟩))))
  refine ⟨h.2.2.1 _ ⟨"C", "D", "E"⟩ rfl (by decide), ?_⟩
  exact h.1.mpr ⟨_, ⟨"C", "D", "E"⟩, rfl, by decide⟩

/-- C10: on a nil error, IsServiceError is false and AsServiceError returns
the zero-valued ServiceError with false; both are total. -/
theorem C10_nil_error :
    IsServiceError none = false ∧ AsServiceError none = (⟨"", "", ""⟩, false) :=
  ⟨rfl, rfl⟩

/-- Reading back the key just assigned yields the assigned value. -/
theorem getV_setV_self (m : HeaderMap) (k : String) (v : List String) :
    HeaderMap.getV (HeaderMap.setV m k v) k = v := by
  induction m with
  | nil => simp [HeaderMap.setV, HeaderMap.getV]
  | cons p rest ih =>
    by_cases h : p.1 = k
    · simp [HeaderMap.setV, HeaderMap.getV, h]
    · simp [HeaderMap.setV, HeaderMap.getV, h, ih]

/-- Assigning one key leaves every other key's value unchanged. -/
theorem getV_setV_ne (m : HeaderMap) (k k2 : String) (v : List String) (h : k ≠ k2) :
    HeaderMap.getV (HeaderMap.setV m k v) k2 = HeaderMap.getV m k2 := by
  induction m with
  | nil => simp [HeaderMap.setV, HeaderMap.getV, h]
  | cons p rest ih =>
    by_cases hp : p.1 = k
    · simp [HeaderMap.setV, HeaderMap.getV, hp, h]
    · simp [HeaderMap.setV, HeaderMap.getV, hp, ih]

/-- Key membership agrees with membership in the list of keys. -/
theorem hasKey_iff_mem (m : HeaderMap) (k : String) :
    HeaderMap.hasKey m k = true ↔ k ∈ m.map Prod.fst := by
  induction m with
  | nil => simp [HeaderMap.hasKey]
  | cons p rest ih =>
    simp only [HeaderMap.hasKey, Bool.or_eq_true, decide_eq_true_eq, List.map_cons,
      List.mem_cons, ih]
    constructor
    · rintro (h | h)
      · exact Or.inl h.symm
      · exact Or.inr h
    · rintro (h | h)
      · exact Or.inl h.symm
      · exact Or.inr h

/-- Looking up a key after folding a unique-keyed source map into a
destination map yields the source's value when the source holds the key and
the destination's value otherwise. -/
theorem getV_mergeInto (src : HeaderMap) (dst : HeaderMap) (k : String)
    (hnd : (src.map Prod.fst).Nodup) :
    HeaderMap.getV (HeaderMap.mergeInto dst src) k =
      if HeaderMap.hasKey src k then HeaderMap.getV src k else HeaderMap.getV dst k := by
  induction src generalizing dst with
  | nil =>
    simp [HeaderMap.mergeInto, HeaderMap.hasKey, HeaderMap.getV]
  | cons p rest ih =>
    have hnd2 : (rest.map Prod.fst).Nodup := (List.nodup_cons.mp hnd).2
    have hnm : p.1 ∉ rest.map Prod.fst := (List.nodup_cons.mp hnd).1
    have hstep : HeaderMap.mergeInto dst (p :: rest)
        = HeaderMap.mergeInto (HeaderMap.setV dst p.1 p.2) rest := rfl
    rw [hstep, ih _ hnd2]
    by_cases hk : p.1 = k
    · subst hk
      have hrest : HeaderMap.hasKey rest p.1 = false := by
        rw [← Bool.not_eq_true, hasKey_iff_mem]
        exact hnm
      simp [hrest, HeaderMap.hasKey, getV_setV_self, HeaderMap.getV]
    · by_cases hr : HeaderMap.hasKey rest k
      · simp [HeaderMap.hasKey, hr, hk, HeaderMap.getV]
      · simp [HeaderMap.hasKey, hr, hk, HeaderMap.getV, getV_setV_ne dst p.1 k p.2 hk]

/-- Reading a slot just overwritten (in range) yields the written map. -/
theorem store_read_write_self (s : Store) (r : Nat) (m : HeaderMap) (h : r < s.length) :
    Store.read (Store.write s r m) r = m := by
  simp [Store.read, Store.write, List.get?_eq_getElem?, List.getElem?_set_self',
    List.getElem?_eq_getElem h]

/-- Unfolding of GetOptHeaders on a nil header map. -/
theorem getOptHeaders_none (s : Store) (n : ServerError) (h : n.Headers = none) :
    ServerError.GetOptHeaders s n = fun s2 m => (s2, m) := by
  obtain ⟨C, D, W, H⟩ := n
  cases h
  rfl

/-- Unfolding of GetOptHeaders on a live header map reference. -/
theorem getOptHeaders_some (s : Store) (n : ServerError) (r : Nat) (h : n.Headers = some r) :
    ServerError.GetOptHeaders s n
      = if (Store.read s r).isEmpty then (fun s2 m => (s2, m))
        else fun s2 m =>
          match m.Header with
          | none => (s2, { m with Header := some r })
          | some mr =>
            (Store.write s2 mr (HeaderMap.mergeInto (Store.read s2 mr) (Store.read s2 r)), m) := by
  obtain ⟨C, D, W, H⟩ := n
  cases h
  rfl

/-- C5: the decorator returned by GetOptHeaders is the identity when the
ServerError's header map is nil or empty; otherwise, on a message with a
nil header container it assigns the ServerError's map reference directly,
and on a message with a live header map it overwrites exactly the
ServerError's keys with the ServerError's value sequences, leaving every
other key of the message's map unchanged. -/
theorem C5_respond_options (s : Store) (n : ServerError) (msg : Msg) (r mr : Nat) :
    (n.Headers = none → ServerError.GetOptHeaders s n s msg = (s, msg))
    ∧ (n.Headers = some r → Store.read s r = [] →
        ServerError.GetOptHeaders s n s msg = (s, msg))
    ∧ (n.Headers = some r → Store.read s r ≠ [] → msg.Header = none →
        ServerError.GetOptHeaders s n s msg = (s, { msg with Header := some r }))
    ∧ (n.Headers = some r → Store.read s r ≠ [] → msg.Header = some mr →
        mr < s.length → ((Store.read s r).map Prod.fst).Nodup →
        (ServerError.GetOptHeaders s n s msg).2 = msg
        ∧ ∀ k, HeaderMap.getV (Store.read (ServerError.GetOptHeaders s n s msg).1 mr) k
            = if HeaderMap.hasKey (Store.read s r) k
              then HeaderMap.getV (Store.read s r) k
              else HeaderMap.getV (Store.read s mr) k) := by
  refine ⟨?_, ?_, ?_, ?_⟩
  · intro h
    rw [getOptHeaders_none s n h]
  · intro h hempty
    rw [getOptHeaders_some s n r h, if_pos (by simp [List.isEmpty_iff, hempty])]
  · intro h hne hmsg
    rw [getOptHeaders_some s n r h, if_neg (by simpa [List.isEmpty_iff] using hne)]
    obtain ⟨mh⟩ := msg
    cases hmsg
    rfl
  · intro h hne hmsg hmr hnd
    rw [getOptHeaders_some s n r h, if_neg (by simpa [List.isEmpty_iff] using hne)]
    obtain ⟨mh⟩ := msg
    cases hmsg
    refine ⟨rfl, fun k => ?_⟩
    show HeaderMap.getV
      (Store.read (Store.write s mr (HeaderMap.mergeInto (Store.read s mr) (Store.read s r))) mr) k
      = _
    rw [store_read_write_self _ _ _ hmr]
    exact getV_mergeInto (Store.read s r) (Store.read s mr) k hnd

/-- Closed instance of C5: a ServerError map with key A overwrites the
message map's A and leaves its B alone; the empty and nil cases are
identities. -/
theorem C5_respond_options_witness :
    (ServerError.GetOptHeaders [[("A", ["x"])], [("A", ["y"]), ("B", ["z"])]]
        { Code := "c", Description := "d", Wrapped := none, Headers := some 0 }
        [[("A", ["x"])], [("A", ["y"]), ("B", ["z"])]] { Header := some 1 }).2
      = { Header := some 1 }
    ∧ HeaderMap.getV
        (Store.read
          (ServerError.GetOptHeaders [[("A", ["x"])], [("A", ["y"]), ("B", ["z"])]]
            { Code := "c", Description := "d", Wrapped := none, Headers := some 0 }
            [[("A", ["x"])], [("A", ["y"]), ("B", ["z"])]] { Header := some 1 }).1 1) "A"
      = ["x"]
    ∧ HeaderMap.getV
        (Store.read
          (ServerError.GetOptHeaders [[("A", ["x"])], [("A", ["y"]), ("B", ["z"])]]
            { Code := "c", Description := "d", Wrapped := none, Headers := some 0 }
            [[("A", ["x"])], [("A", ["y"]), ("B", ["z"])]] { Header := some 1 }).1 1) "B"
      = ["z"]
    ∧ ServerError.GetOptHeaders [] (NewServerErr "c" "d") [] { Header := some 1 }
      = ([], { Header := some 1 }) := by
  have h := (C5_respond_options [[("A", ["x"])], [("A", ["y"]), ("B", ["z"])]]
    { Code := "c", Description := "d", Wrapped := none, Headers := some 0 }
    { Header := some 1 } 0 1).2.2.2 rfl (by decide) rfl (by decide) (by decide)
  have hnil := (C5_respond_options [] (NewServerErr "c" "d") { Header := some 1 } 0 1).1 rfl
  refine ⟨h.1, ?_, ?_, hnil⟩
  · rw [h.2 "A"]
    decide
  · rw [h.2 "B"]
    decide

/-- C1 fails on the code: two ServerError values that share a header map
reference (as any two Go copies of a common base do, the map being a
reference type) observe each other's mutations.  Below, both values carry
reference 0 into a one-slot store holding the empty map; before the
mutation the second value's GetHeaders is empty, and after AddHeader runs
on the *first* value, GetHeaders on the *second* returns the appended
entry. -/
theorem C1_header_aliasing :
    ServerError.GetHeaders [[]] ((NewServerErr "c" "d2").WithHeaders (some 0)) = []
    ∧ (ServerError.AddHeader [[]] ((NewServerErr "c" "d1").WithHeaders (some 0)) "X" "a").map
        (fun p => ServerError.GetHeaders p.1 ((NewServerErr "c" "d2").WithHeaders (some 0)))
      = some [("X", ["a"])] :=
  ⟨rfl, rfl⟩

/-- C2 fails on the code: on a ServerError fresh from NewServerErr the
header map is nil, the value-receiver ensureHeader call repairs only a
discarded copy, and both AddHeader and SetHeader then assign into a nil
map — a Go runtime panic, modelled as `none`. -/
theorem C2_add_header_panics :
    ServerError.AddHeader [] (NewServerErr "codeA" "descA") "X" "a" = none
    ∧ ServerError.SetHeader [] (NewServerErr "codeA" "descA") "X" "c" = none :=
  ⟨rfl, rfl⟩

/-- C3 fails on the code at its very first step: AddHeader on a fresh
ServerError panics (first conjunct).  On a ServerError whose header map is
already live, the append/replace logic does behave as the claim states:
AddHeader twice accumulates the sequence for the key, and SetHeader then
replaces it with the one-element sequence (remaining conjuncts). -/
theorem C3_add_add_set :
    ServerError.AddHeader [] (NewServerErr "c" "d") "X" "a" = none
    ∧ ((ServerError.AddHeader [[]] ((NewServerErr "c" "d").WithHeaders (some 0)) "X" "a").bind
        (fun p => ServerError.AddHeader p.1 p.2 "X" "b")).map
        (fun p => ServerError.GetHeaders p.1 p.2) = some [("X", ["a", "b"])]
    ∧ (((ServerError.AddHeader [[]] ((NewServerErr "c" "d").WithHeaders (some 0)) "X" "a").bind
        (fun p => ServerError.AddHeader p.1 p.2 "X" "b")).bind
        (fun p => ServerError.SetHeader p.1 p.2 "X" "c")).map
        (fun p => ServerError.GetHeaders p.1 p.2) = some [("X", ["c"])] :=
  ⟨rfl, rfl, rfl⟩

end ProtoNats
